import Mathlib

/-!
Verification development for the Parser repository: a structural-inference
pipeline over book-like PDFs (TOC detection, page-offset resolution, and
chapter/section content extraction with token-aware splitting and
question-count distribution).

The Python sources are shallowly embedded: pure functions become Lean
functions over `Nat`/`Int`/`Rat`/`String`; Python dictionaries become
association lists preserving insertion order; fallible code returns
`Except`.  Real-valued page coordinates are modelled with exact rationals.
-/

/-! Python-style string primitives.  These model the exact semantics of the
string operations used by the source (`str.strip`, `str.split`,
`str.split('\n')`, `'\n'.join`, `str.lower`, substring membership, and the
regex fragments the source uses), restricted to ASCII, which is the
alphabet all the claims range over. -/

/-- Whitespace characters recognised by Python `str.strip` / `str.split`. -/
def isPySpace (c : Char) : Bool :=
  c = ' ' || c = '\t' || c = '\n' || c = '\r' || c = '\x0b' || c = '\x0c'

/-- ASCII decimal digit, modelling `str.isdigit` characters and regex `\d`. -/
def isPyDigit (c : Char) : Bool :=
  '0' ≤ c && c ≤ '9'

/-- Python `str.isdigit`: nonempty and all characters digits. -/
def pyIsDigit (s : String) : Bool :=
  !s.toList.isEmpty && s.toList.all isPyDigit

/-- Split a character list at every occurrence of `c`, keeping empty pieces,
modelling Python `text.split(c)`. -/
def chSplit (c : Char) : List Char → List (List Char)
  | [] => [[]]
  | a :: rest =>
    match chSplit c rest with
    | [] => [[]]
    | g :: gs => if a = c then [] :: g :: gs else (a :: g) :: gs

/-- Join character-list pieces with separator `sep`, modelling Python
`sep.join(pieces)`. -/
def chJoin (sep : List Char) : List (List Char) → List Char
  | [] => []
  | [g] => g
  | g :: gs => g ++ sep ++ chJoin sep gs

/-- Python `text.split('\n')` on strings. -/
def pySplitNl (s : String) : List String :=
  (chSplit '\n' s.toList).map (fun l => ⟨l⟩)

/-- Python `'\n'.join(parts)` on strings. -/
def pyJoinNl (parts : List String) : String :=
  ⟨chJoin ['\n'] (parts.map String.toList)⟩

/-- Python `str.strip` on a character list. -/
def chStrip (l : List Char) : List Char :=
  ((l.dropWhile isPySpace).reverse.dropWhile isPySpace).reverse

/-- Python `str.strip` on strings. -/
def pyStrip (s : String) : String :=
  ⟨chStrip s.toList⟩

/-- Python `str.lower` (ASCII). -/
def pyLower (s : String) : String :=
  ⟨s.toList.map Char.toLower⟩

/-- Whitespace-run splitter, modelling Python `str.split()` with no
arguments: maximal non-space runs, empty pieces dropped. -/
def wsplitAux (cur : List Char) : List Char → List (List Char)
  | [] => if cur.isEmpty then [] else [cur.reverse]
  | c :: rest =>
    if isPySpace c then
      if cur.isEmpty then wsplitAux [] rest else cur.reverse :: wsplitAux [] rest
    else
      wsplitAux (c :: cur) rest

/-- Python `s.split()` on a character list. -/
def wsplit (l : List Char) : List (List Char) :=
  wsplitAux [] l

/-- Replace every maximal whitespace run by a single space, modelling
`re.sub(r'\s+', ' ', s)`.  The boolean flag records whether the previous
character was part of a whitespace run. -/
def collapseWsAux (inRun : Bool) : List Char → List Char
  | [] => []
  | c :: rest =>
    if isPySpace c then
      if inRun then collapseWsAux true rest else ' ' :: collapseWsAux true rest
    else
      c :: collapseWsAux false rest

/-- `re.sub(r'\s+', ' ', s)` on strings. -/
def collapseWs (s : String) : String :=
  ⟨collapseWsAux false s.toList⟩

/-- Substring membership on character lists, modelling Python `needle in hay`
and `re.search` of a literal. -/
def chHasSub (hay needle : List Char) : Bool :=
  hay.tails.any (fun t => needle.isPrefixOf t)

/-- Python `needle in hay` on strings. -/
def pyContains (hay needle : String) : Bool :=
  chHasSub hay.toList needle.toList

/-- Python `s.startswith(p)`. -/
def pyStartsWith (s p : String) : Bool :=
  p.toList.isPrefixOf s.toList

/-- Maximal digit runs of a character list (`re.findall` style scan); `cur`
accumulates the current run in reverse. -/
def digitRunsAux (cur : List Char) : List Char → List (List Char)
  | [] => if cur.isEmpty then [] else [cur.reverse]
  | c :: rest =>
    if isPyDigit c then
      digitRunsAux (c :: cur) rest
    else
      if cur.isEmpty then digitRunsAux [] rest else cur.reverse :: digitRunsAux [] rest

/-- Maximal digit runs of a character list. -/
def digitRuns (l : List Char) : List (List Char) :=
  digitRunsAux [] l

/-- Numeric value of a digit run. -/
def digitsToNat (l : List Char) : Nat :=
  l.foldl (fun a c => a * 10 + (c.toNat - '0'.toNat)) 0

/-! Embedding of `distribute_questions`
(src/pdf/content_extractor.py, lines 12-74).  The Python dictionary of
extracted sections is modelled as an association list in insertion order;
the real-valued proportion `len(content) / total_chars * remaining` followed
by `int(...)` truncation is modelled by exact natural floor division
`len * remaining / total_chars`. -/

/-- `sum(len(content) for content in extracted_sections.values())`. -/
def totalChars (sections : List (String × String)) : Nat :=
  (sections.map (fun kv => kv.2.length)).sum

/-- The even-split branch taken when `reserved_questions > total_questions`:
`total_questions // len(extracted_sections)` for every section. -/
def dqEven (sections : List (String × String)) (total_questions : Nat) :
    List (String × Nat) :=
  sections.map (fun kv => (kv.1, total_questions / sections.length))

/-- The initial per-section allocation: the reserved minimum of one question
plus `int(proportion * remaining_questions)`, where `remaining_questions`
is the total minus the reserved questions and the truncated real proportion
is modelled by exact floor division. -/
def dqBase (sections : List (String × String)) (total_questions : Nat) :
    List (String × Nat) :=
  sections.map (fun kv =>
    (kv.1, 1 + (if 0 < totalChars sections then
      kv.2.length * (total_questions - sections.length * 1) / totalChars sections
    else 0)))

/-- `actual_total = sum(questions_per_section.values())` after the initial
allocation. -/
def dqActual (sections : List (String × String)) (total_questions : Nat) : Nat :=
  ((dqBase sections total_questions).map (fun kv => kv.2)).sum

/-- `remaining = total_questions - actual_total` before the top-up loop. -/
def dqLeftover (sections : List (String × String)) (total_questions : Nat) : Nat :=
  total_questions - dqActual sections total_questions

/-- The keys of `sections_by_length` (stable sort by content length,
descending) that the top-up loop increments: the loop walks the sorted
sections handing out one extra question each while `remaining > 0`. -/
def dqBumpKeys (sections : List (String × String)) (total_questions : Nat) :
    List String :=
  (((sections.mergeSort (fun a b => b.2.length ≤ a.2.length)).map
    (fun kv => kv.1)).take (dqLeftover sections total_questions))

/-- Embedding of `distribute_questions`: allocate `total_questions` across
sections.  If there are more sections than questions
(`reserved_questions > total_questions`), distribute evenly with floor
division; otherwise give each section one question plus a share proportional
to its character length, then hand out the rounding leftover one-by-one to
the longest sections. -/
def distribute_questions (sections : List (String × String)) (total_questions : Nat) :
    List (String × Nat) :=
  if sections.length * 1 > total_questions then
    dqEven sections total_questions
  else
    (dqBase sections total_questions).map (fun kv =>
      (kv.1, kv.2 + (if kv.1 ∈ dqBumpKeys sections total_questions then 1 else 0)))

/-! Arithmetic helper lemmas for the question-distribution proofs. -/

lemma sum_map_add_nat {α : Type} (l : List α) (f g : α → Nat) :
    (l.map (fun x => f x + g x)).sum = (l.map f).sum + (l.map g).sum := by
  induction l with
  | nil => simp
  | cons a t ih => simp [ih]; omega

lemma sum_map_one {α : Type} (l : List α) :
    (l.map (fun _ => (1 : Nat))).sum = l.length := by
  induction l with
  | nil => simp
  | cons a t ih => simp [ih]; omega

lemma sum_map_div_le {α : Type} (l : List α) (f : α → Nat) (T : Nat) :
    (l.map (fun x => f x / T)).sum ≤ (l.map f).sum / T := by
  induction l with
  | nil => simp
  | cons a t ih =>
    simp only [List.map_cons, List.sum_cons]
    calc f a / T + (t.map (fun x => f x / T)).sum
        ≤ f a / T + (t.map f).sum / T := by omega
      _ ≤ (f a + (t.map f).sum) / T := Nat.add_div_le_add_div _ _ _

lemma sum_map_decomp {α : Type} (l : List α) (f : α → Nat) (T : Nat) :
    (l.map f).sum =
      T * (l.map (fun x => f x / T)).sum + (l.map (fun x => f x % T)).sum := by
  induction l with
  | nil => simp
  | cons a t ih =>
    simp only [List.map_cons, List.sum_cons, Nat.mul_add]
    have h := Nat.div_add_mod (f a) T
    omega

lemma sum_map_mod_le {α : Type} (l : List α) (f : α → Nat) (T : Nat) (hT : 0 < T) :
    (l.map (fun x => f x % T)).sum ≤ l.length * (T - 1) := by
  induction l with
  | nil => simp
  | cons a t ih =>
    simp only [List.map_cons, List.sum_cons, List.length_cons]
    have h := Nat.mod_lt (f a) hT
    have hexp : (t.length + 1) * (T - 1) = t.length * (T - 1) + (T - 1) := by ring
    omega

lemma leftover_lt_length {α : Type} (l : List α) (f : α → Nat) (T R : Nat)
    (hT : 0 < T) (hl : l ≠ []) (hsum : (l.map f).sum = T * R) :
    R - (l.map (fun x => f x / T)).sum < l.length := by
  set S := (l.map (fun x => f x / T)).sum with hS
  set M := (l.map (fun x => f x % T)).sum with hM
  have hdec : T * R = T * S + M := by rw [← hsum]; exact sum_map_decomp l f T
  have hmod : M ≤ l.length * (T - 1) := sum_map_mod_le l f T hT
  have hn : 0 < l.length := List.length_pos.mpr hl
  by_contra hcon
  push_neg at hcon
  have hSR : S ≤ R := by
    have h1 := sum_map_div_le l f T
    rw [hsum, Nat.mul_div_cancel_left _ hT] at h1
    exact h1
  have h2 : S + l.length ≤ R := by omega
  have h3 : T * (S + l.length) ≤ T * R := Nat.mul_le_mul_left T h2
  rw [Nat.mul_add] at h3
  have h4 : T * l.length ≤ M := by omega
  have h5 : l.length * (T - 1) < l.length * T :=
    mul_lt_mul_of_pos_left (Nat.sub_lt hT Nat.one_pos) hn
  have h6 : T * l.length < T * l.length := by
    calc T * l.length ≤ M := h4
      _ ≤ l.length * (T - 1) := hmod
      _ < l.length * T := h5
      _ = T * l.length := Nat.mul_comm _ _
  exact absurd h6 (lt_irrefl _)

lemma sum_map_ite_one {α : Type} (l : List α) (p : α → Prop) [DecidablePred p] :
    (l.map (fun x => if p x then 1 else 0)).sum = l.countP (fun x => decide (p x)) := by
  induction l with
  | nil => simp
  | cons a t ih =>
    simp only [List.map_cons, List.sum_cons, List.countP_cons, ih]
    by_cases h : p a
    · simp [h]
      omega
    · simp [h]

lemma countP_mem_eq_length (keys B : List String) (hk : keys.Nodup) (hB : B.Nodup)
    (hsub : ∀ b ∈ B, b ∈ keys) :
    keys.countP (fun k => decide (k ∈ B)) = B.length := by
  rw [List.countP_eq_length_filter]
  have hperm : List.Perm (keys.filter (fun k => decide (k ∈ B))) B := by
    rw [List.perm_ext_iff_of_nodup (hk.filter _) hB]
    intro a
    simp only [List.mem_filter, decide_eq_true_eq]
    constructor
    · exact fun h => h.2
    · exact fun h => ⟨hsub a h, h⟩
  exact hperm.length_eq

lemma sum_map_snd_bump (l : List (String × Nat)) (B : List String) :
    ((l.map (fun kv => (kv.1, kv.2 + (if kv.1 ∈ B then 1 else 0)))).map Prod.snd).sum
      = (l.map Prod.snd).sum + l.countP (fun kv => decide (kv.1 ∈ B)) := by
  induction l with
  | nil => simp
  | cons a t ih =>
    simp only [List.map_cons, List.sum_cons, List.countP_cons, ih]
    by_cases h : a.1 ∈ B
    · simp [h]; omega
    · simp [h]; omega

lemma countP_key_map {β : Type} (s : List (String × β)) (v : String × β → Nat)
    (B : List String) :
    (s.map (fun kv => (kv.1, v kv))).countP (fun kv => decide (kv.1 ∈ B))
      = (s.map Prod.fst).countP (fun k => decide (k ∈ B)) := by
  induction s with
  | nil => simp
  | cons a t ih => simp [List.countP_cons, ih]

/-- C10: the mapping returned by `distribute_questions` has exactly the same
key sequence as the input map of extracted sections: every extracted section
receives an entry (possibly 0 in the even-split branch) and no key is added
or dropped. -/
theorem distribute_questions_preserves_keys (sections : List (String × String))
    (total_questions : Nat) :
    (distribute_questions sections total_questions).map Prod.fst
      = sections.map Prod.fst := by
  unfold distribute_questions dqEven dqBase
  by_cases h : sections.length * 1 > total_questions
  · rw [if_pos h]
    simp [List.map_map, Function.comp]
  · rw [if_neg h]
    simp [List.map_map, Function.comp]

/-- C4 counterexample: for the three-section map below and `total_questions
= 2` the even-split branch triggers and the returned counts sum to 0, not to
the requested total of 2. -/
theorem distribute_questions_sum_counterexample :
    ((distribute_questions [("1.1", "a"), ("1.2", "b"), ("1.3", "c")] 2).map
      Prod.snd).sum = 0 ∧ (0 : Nat) ≠ 2 := by
  constructor
  · rfl
  · decide

/-- C4 (amended): for a non-empty extracted-sections map with distinct keys,
(a) when the section count exceeds `total_questions` the even-split branch
assigns every section `total_questions / N` (so the sum is `N * (total / N)`,
which falls short of `total_questions` whenever `N` does not divide it), and
(b) when the section count is at most `total_questions` and the total
character count is positive, the returned counts sum to exactly
`total_questions` and every section receives at least 1. -/
theorem distribute_questions_correct (sections : List (String × String)) (total : Nat)
    (hne : sections ≠ []) (hnd : (sections.map Prod.fst).Nodup) :
    (total < sections.length →
      ∀ kv ∈ distribute_questions sections total, kv.2 = total / sections.length)
    ∧ (sections.length ≤ total → 0 < totalChars sections →
      ((distribute_questions sections total).map Prod.snd).sum = total
      ∧ ∀ kv ∈ distribute_questions sections total, 1 ≤ kv.2) := by
  constructor
  · intro hlt kv hkv
    unfold distribute_questions at hkv
    rw [if_pos (by omega)] at hkv
    unfold dqEven at hkv
    simp only [List.mem_map] at hkv
    obtain ⟨ab, _, rfl⟩ := hkv
    rfl
  · intro hle hT
    have hcond : ¬ (sections.length * 1 > total) := by omega
    have hres : distribute_questions sections total =
        (dqBase sections total).map (fun kv =>
          (kv.1, kv.2 + (if kv.1 ∈ dqBumpKeys sections total then 1 else 0))) := by
      unfold distribute_questions
      rw [if_neg hcond]
    have hact : dqActual sections total = sections.length
        + (sections.map (fun kv =>
            kv.2.length * (total - sections.length * 1) / totalChars sections)).sum := by
      unfold dqActual dqBase
      rw [List.map_map]
      have hfe : ((fun kv => kv.2) ∘ fun kv : String × String =>
          (kv.1, 1 + (if 0 < totalChars sections then
            kv.2.length * (total - sections.length * 1) / totalChars sections
          else 0)))
          = fun kv : String × String =>
            1 + kv.2.length * (total - sections.length * 1) / totalChars sections := by
        funext kv
        simp [Function.comp, hT]
      rw [hfe, sum_map_add_nat sections (fun _ => 1)
        (fun kv => kv.2.length * (total - sections.length * 1) / totalChars sections),
        sum_map_one]
    set n := sections.length with hn
    set T := totalChars sections with hTdef
    set R := total - n * 1 with hRdef
    set S := (sections.map (fun kv => kv.2.length * R / T)).sum with hSdef
    have hsumTR : (sections.map (fun kv => kv.2.length * R)).sum = T * R := by
      rw [List.sum_map_mul_right, hTdef]
      unfold totalChars
      ring
    have hSle : S ≤ R := by
      have h1 := sum_map_div_le sections (fun kv => kv.2.length * R) T
      rw [hsumTR, Nat.mul_div_cancel_left _ hT] at h1
      exact h1
    have hlt2 : R - S < n :=
      leftover_lt_length sections (fun kv => kv.2.length * R) T R hT hne hsumTR
    have hleft : dqLeftover sections total = R - S := by
      unfold dqLeftover
      rw [hact]
      omega
    have hlu : dqLeftover sections total < n := by
      rw [hleft]; exact hlt2
    set B := dqBumpKeys sections total with hBdef
    have hperm : List.Perm
        (sections.mergeSort (fun a b => b.2.length ≤ a.2.length)) sections :=
      List.mergeSort_perm _ _
    have hkeysperm : List.Perm
        ((sections.mergeSort (fun a b => b.2.length ≤ a.2.length)).map Prod.fst)
        (sections.map Prod.fst) := hperm.map _
    have hsortNodup :
        ((sections.mergeSort (fun a b => b.2.length ≤ a.2.length)).map Prod.fst).Nodup :=
      (hkeysperm.nodup_iff).mpr hnd
    have hBnodup : B.Nodup := by
      rw [hBdef]
      unfold dqBumpKeys
      exact hsortNodup.sublist (List.take_sublist _ _)
    have hBsub : ∀ b ∈ B, b ∈ sections.map Prod.fst := by
      intro b hb
      rw [hBdef] at hb
      unfold dqBumpKeys at hb
      exact (hkeysperm.mem_iff).mp ((List.take_sublist _ _).subset hb)
    have hBlen : B.length = dqLeftover sections total := by
      rw [hBdef]
      unfold dqBumpKeys
      rw [List.length_take, List.length_map, hperm.length_eq]
      omega
    constructor
    · rw [hres, sum_map_snd_bump (dqBase sections total) B]
      have hcount : (dqBase sections total).countP (fun kv => decide (kv.1 ∈ B))
          = (sections.map Prod.fst).countP (fun k => decide (k ∈ B)) := by
        unfold dqBase
        rw [countP_key_map]
      have hkeys : (sections.map Prod.fst).countP (fun k => decide (k ∈ B)) = B.length :=
        countP_mem_eq_length (sections.map Prod.fst) B hnd hBnodup hBsub
      have hActEq : ((dqBase sections total).map Prod.snd).sum = dqActual sections total := rfl
      rw [hcount, hkeys, hActEq, hBlen, hleft, hact]
      omega
    · intro kv hkv
      rw [hres] at hkv
      simp only [List.mem_map] at hkv
      obtain ⟨ab, hab, rfl⟩ := hkv
      unfold dqBase at hab
      simp only [List.mem_map] at hab
      obtain ⟨cd, _, rfl⟩ := hab
      simp only []
      omega

/-- Witness for the amended C4 theorem: a concrete two-section map with five
requested questions ends up with counts summing to exactly five. -/
theorem distribute_questions_correct_witness :
    ((distribute_questions [("1.1", "ab"), ("1.2", "c")] 5).map Prod.snd).sum = 5 :=
  ((distribute_questions_correct [("1.1", "ab"), ("1.2", "c")] 5 (by decide)
    (by decide)).2 (by decide) (by decide)).1

/-! Data model.  A `Word` is a positioned token as produced by the document
collaborator (`extract_words`): text plus horizontal/vertical bounding-box
coordinates, modelled as exact rationals.  A `Page` carries its extractable
text, its positioned words and its media-box width.  A `TocEntry` mirrors
one entry of the structured TOC dictionary (`level`, dotted `number`,
`title`, printed `page`). -/

structure Word where
  text : String
  x0 : Rat
  top : Rat
  bottom : Rat
deriving DecidableEq

structure Page where
  text : String
  words : List Word
  width : Rat
deriving DecidableEq

structure Pdf where
  pages : List Page
deriving DecidableEq

structure TocEntry where
  level : Nat
  number : String
  title : String
  page : Nat
deriving DecidableEq

structure TocStructure where
  entries : List TocEntry
deriving DecidableEq

/-- Tag recorded with each candidate offset: whether it was corroborated by
the first chapter entry or by its first section entry. -/
inductive OffsetSrc where
  | chapter
  | sect
deriving DecidableEq

/-! Embedding of `find_page_offset` (src/pdf/page_analyzer.py, lines 5-108)
and its nested helpers. -/

/-- Embedding of the nested `extract_page_numbers`: strip each line, keep the
first and last three lines, and extract every standalone 1-4 digit token
(the regex `(?<!\d)\d{1,4}(?!\d)`, which matches exactly the maximal digit
runs of length 1 to 4). -/
def extract_page_numbers (text : String) : List Nat :=
  let lines := (chSplit '\n' text.toList).map chStrip
  let candidate_lines := lines.take 3 ++ lines.drop (lines.length - 3)
  candidate_lines.flatMap (fun line =>
    ((digitRuns line).filter
      (fun r => decide (1 ≤ r.length) && decide (r.length ≤ 4))).map digitsToNat)

/-- Embedding of the nested `text_matches_title`: normalize both strings
(lowercase, strip, collapse whitespace runs), try an exact substring match,
then fall back to requiring every title word somewhere in the text. -/
def text_matches_title (text title : String) : Bool :=
  let clean_text := collapseWs (pyStrip (pyLower text))
  let clean_title := collapseWs (pyStrip (pyLower title))
  if pyContains clean_text clean_title then true
  else (wsplit clean_title.toList).all (fun w => chHasSub clean_text.toList w)

/-- The chapter-level (`level == 0`) entries of the structured TOC. -/
def tocChapters (toc : TocStructure) : List TocEntry :=
  toc.entries.filter (fun e => e.level == 0)

/-- The first section-level entry whose dotted number extends the given
chapter's number, if any. -/
def firstSectionOf (toc : TocStructure) (ch : TocEntry) : Option TocEntry :=
  toc.entries.find? (fun e => e.level == 1 && pyStartsWith e.number (ch.number ++ "."))

/-- The `potential_offsets` list accumulated by the scan loop of
`find_page_offset`: for every physical page in the bounded search window
after the TOC and every standalone numeric token on it, record
`physical - logical` tagged `chapter` when the token equals the first
chapter's printed page and the page text corroborates the chapter title, and
likewise tagged `sect` for the first section entry. -/
def pageOffsetCandidates (pdf : Pdf) (toc : TocStructure) (last_toc_page : Nat) :
    List (Int × OffsetSrc) :=
  match tocChapters toc with
  | [] => []
  | first_chapter :: _ =>
    let first_section := firstSectionOf toc first_chapter
    let lo := last_toc_page + 1
    let hi := min (last_toc_page + 50) pdf.pages.length
    (List.range' lo (hi - lo)).flatMap (fun pdf_page_number =>
      match pdf.pages[pdf_page_number]? with
      | none => []
      | some page =>
        (extract_page_numbers page.text).flatMap (fun page_number =>
          (if page_number == first_chapter.page
              && text_matches_title page.text first_chapter.title then
            [((pdf_page_number : Int) - first_chapter.page, OffsetSrc.chapter)]
          else []) ++
          (match first_section with
           | some fs =>
             if page_number == fs.page && text_matches_title page.text fs.title then
               [((pdf_page_number : Int) - fs.page, OffsetSrc.sect)]
             else []
           | none => [])))

/-- Embedding of `find_page_offset`: fail on an empty structure or a
structure without chapter-level entries, scan the bounded window for
corroborated candidates, fail when none is found, otherwise prefer the first
chapter-tagged candidate and fall back to the first candidate overall. -/
def find_page_offset (pdf : Pdf) (toc : TocStructure) (last_toc_page : Nat) :
    Except String Int :=
  if toc.entries.isEmpty then
    Except.error "Structured TOC is empty"
  else
    match tocChapters toc with
    | [] => Except.error "No chapters found in TOC"
    | _ :: _ =>
      match pageOffsetCandidates pdf toc last_toc_page with
      | [] => Except.error "Could not determine page offset"
      | c :: rest =>
        match (c :: rest).filter (fun co => co.2 == OffsetSrc.chapter) with
        | o :: _ => Except.ok o.1
        | [] => Except.ok c.1

/-- Boolean error discriminator for `Except` results. -/
def exceptIsError {ε α : Type} : Except ε α → Bool
  | Except.error _ => true
  | Except.ok _ => false

lemma flatMap_eq_single {α β : Type} (l : List α) (f : α → List β) (a : α)
    (hmem : a ∈ l) (hnd : l.Nodup) (hz : ∀ b ∈ l, b ≠ a → f b = []) :
    l.flatMap f = f a := by
  induction l with
  | nil => cases hmem
  | cons x t ih =>
    simp only [List.flatMap_cons]
    rcases List.mem_cons.mp hmem with h | h
    · subst h
      have ht : t.flatMap f = [] := by
        rw [List.flatMap_eq_nil_iff]
        intro b hb
        exact hz b (List.mem_cons_of_mem _ hb)
          (by rintro rfl; exact (List.nodup_cons.mp hnd).1 hb)
      rw [ht, List.append_nil]
    · have hx : f x = [] :=
        hz x (List.mem_cons_self x t)
          (by rintro rfl; exact (List.nodup_cons.mp hnd).1 h)
      rw [hx, List.nil_append]
      exact ih h (List.nodup_cons.mp hnd).2
        (fun b hb hbn => hz b (List.mem_cons_of_mem _ hb) hbn)

lemma tocChapters_ne_nil_entries {toc : TocStructure} (h : tocChapters toc ≠ []) :
    ¬ toc.entries.isEmpty = true := by
  intro hE
  apply h
  have hnil : toc.entries = [] := List.isEmpty_iff.mp hE
  unfold tocChapters
  rw [hnil]
  rfl

lemma pageOffsetCandidates_ne_nil_chapters {pdf : Pdf} {toc : TocStructure}
    {last_toc_page : Nat} (h : pageOffsetCandidates pdf toc last_toc_page ≠ []) :
    tocChapters toc ≠ [] := by
  intro hc
  apply h
  unfold pageOffsetCandidates
  rw [hc]

/-- C2: whenever the scan collects at least one candidate, `find_page_offset`
returns the first chapter-tagged candidate if any exists, and otherwise the
first candidate in page-scan order, which is then necessarily
section-tagged; when no candidate is collected it fails with an error
instead of returning a default offset. -/
theorem find_page_offset_selection (pdf : Pdf) (toc : TocStructure)
    (last_toc_page : Nat) :
    (pageOffsetCandidates pdf toc last_toc_page = [] → tocChapters toc ≠ [] →
      find_page_offset pdf toc last_toc_page
        = Except.error "Could not determine page offset")
    ∧ (∀ o, ((pageOffsetCandidates pdf toc last_toc_page).filter
          (fun co => co.2 == OffsetSrc.chapter)).head? = some o →
      find_page_offset pdf toc last_toc_page = Except.ok o.1)
    ∧ ((pageOffsetCandidates pdf toc last_toc_page).filter
          (fun co => co.2 == OffsetSrc.chapter) = [] →
      ∀ c, (pageOffsetCandidates pdf toc last_toc_page).head? = some c →
      c.2 = OffsetSrc.sect ∧ find_page_offset pdf toc last_toc_page = Except.ok c.1) := by
  refine ⟨?_, ?_, ?_⟩
  · intro hcand hch
    unfold find_page_offset
    rw [if_neg (tocChapters_ne_nil_entries hch)]
    rcases hc : tocChapters toc with _ | ⟨ch, rest⟩
    · exact absurd hc hch
    · rw [hcand]
  · intro o ho
    have hfne : (pageOffsetCandidates pdf toc last_toc_page).filter
        (fun co => co.2 == OffsetSrc.chapter) ≠ [] := by
      intro h
      rw [h] at ho
      cases ho
    have hcandne : pageOffsetCandidates pdf toc last_toc_page ≠ [] := by
      intro h
      apply hfne
      rw [h]
      rfl
    have hch := pageOffsetCandidates_ne_nil_chapters hcandne
    unfold find_page_offset
    rw [if_neg (tocChapters_ne_nil_entries hch)]
    rcases hc : tocChapters toc with _ | ⟨ch, rest⟩
    · exact absurd hc hch
    · rcases hcands : pageOffsetCandidates pdf toc last_toc_page with _ | ⟨c, rest2⟩
      · exact absurd hcands hcandne
      · rw [hcands] at ho
        rcases hfil : (c :: rest2).filter (fun co => co.2 == OffsetSrc.chapter)
          with _ | ⟨o2, r3⟩
        · rw [hfil] at ho
          cases ho
        · rw [hfil] at ho
          simp only [List.head?_cons, Option.some.injEq] at ho
          subst ho
          simp only [hfil]
  · intro hfil c hc
    rcases hcands : pageOffsetCandidates pdf toc last_toc_page with _ | ⟨c0, rest2⟩
    · rw [hcands] at hc
      cases hc
    · rw [hcands] at hc
      simp only [List.head?_cons, Option.some.injEq] at hc
      subst hc
      have hcandne : pageOffsetCandidates pdf toc last_toc_page ≠ [] := by
        rw [hcands]
        intro h
        cases h
      have hch := pageOffsetCandidates_ne_nil_chapters hcandne
      rw [hcands] at hfil
      have hcnotch : ¬ (c0.2 == OffsetSrc.chapter) = true := by
        have := List.filter_eq_nil_iff.mp hfil
        exact this c0 (List.mem_cons_self c0 rest2)
      have hcsect : c0.2 = OffsetSrc.sect := by
        cases h2 : c0.2
        · rw [h2] at hcnotch
          simp at hcnotch
        · rfl
      refine ⟨hcsect, ?_⟩
      unfold find_page_offset
      rw [if_neg (tocChapters_ne_nil_entries hch)]
      rcases hcch : tocChapters toc with _ | ⟨ch, rest⟩
      · exact absurd hcch hch
      · rw [hcands]
        dsimp only
        rw [hfil]

/-- C7: `find_page_offset` fails (with an error rather than a default
offset) in exactly two situations: the structure has no chapter-level
entries, or no corroborating candidate is collected in the search window.
An empty structure is covered by the first disjunct, since an empty entry
list has no chapter-level entries. -/
theorem find_page_offset_error_iff (pdf : Pdf) (toc : TocStructure)
    (last_toc_page : Nat) :
    exceptIsError (find_page_offset pdf toc last_toc_page) = true ↔
      (tocChapters toc = [] ∨ pageOffsetCandidates pdf toc last_toc_page = []) := by
  constructor
  · intro h
    by_contra hcon
    push_neg at hcon
    obtain ⟨hch, hcand⟩ := hcon
    unfold find_page_offset at h
    rw [if_neg (tocChapters_ne_nil_entries hch)] at h
    rcases hc : tocChapters toc with _ | ⟨ch, rest⟩
    · exact absurd hc hch
    · rw [hc] at h
      rcases hcands : pageOffsetCandidates pdf toc last_toc_page with _ | ⟨c, rest2⟩
      · exact absurd hcands hcand
      · rw [hcands] at h
        dsimp only at h
        rcases hfil : (c :: rest2).filter (fun co => co.2 == OffsetSrc.chapter)
          with _ | ⟨o, r3⟩
        · rw [hfil] at h
          cases h
        · rw [hfil] at h
          cases h
  · intro h
    rcases h with hch | hcand
    · by_cases hE : toc.entries.isEmpty = true
      · unfold find_page_offset
        rw [if_pos hE]
        rfl
      · unfold find_page_offset
        rw [if_neg hE, hch]
        rfl
    · by_cases hE : toc.entries.isEmpty = true
      · unfold find_page_offset
        rw [if_pos hE]
        rfl
      · unfold find_page_offset
        rw [if_neg hE]
        rcases hc : tocChapters toc with _ | ⟨ch, rest⟩
        · rfl
        · rw [hcand]
          rfl

/-! Synthetic documents for the offset-recovery property.  The document is
constructed with a constant offset: the physical page holding the first
chapter (printed page 5, title "Origins") carries its printed page number as
a standalone digit token in its first lines together with the chapter
title; every other page is blank.  The injected offset is
`phys - 5`, where `phys` is the physical index of the chapter page. -/

/-- Structured TOC of the synthetic document: one chapter entry, printed
page 5, titled "Origins". -/
def synthToc : TocStructure := ⟨[⟨0, "1", "Origins", 5⟩]⟩

/-- Page `p` of the synthetic document with the chapter page at physical
index `phys`. -/
def synthPage (phys p : Nat) : Page :=
  if p = phys then ⟨"5\nOrigins", [], 612⟩ else ⟨"", [], 612⟩

/-- The synthetic document: `numPages` pages, chapter page at `phys`. -/
def synthPdf (numPages phys : Nat) : Pdf :=
  ⟨(List.range numPages).map (synthPage phys)⟩

/-- C1: for every injected constant offset (every placement `phys` of the
chapter page, i.e. offset `O = phys - 5`) such that the chapter page lies
inside the bounded search window after the last TOC page,
`find_page_offset` recovers exactly the injected offset. -/
theorem find_page_offset_recovers_offset (phys last_toc_page numPages : Nat)
    (h1 : last_toc_page + 1 ≤ phys)
    (h2 : phys < min (last_toc_page + 50) numPages) :
    find_page_offset (synthPdf numPages phys) synthToc last_toc_page
      = Except.ok ((phys : Int) - 5) := by
  have hlen : (synthPdf numPages phys).pages.length = numPages := by
    simp [synthPdf]
  have hget : ∀ n, n < numPages →
      (synthPdf numPages phys).pages[n]? = some (synthPage phys n) := by
    intro n hn
    simp [synthPdf, List.getElem?_map, List.getElem?_range hn]
  have hcand : pageOffsetCandidates (synthPdf numPages phys) synthToc last_toc_page
      = [((phys : Int) - 5, OffsetSrc.chapter), ((phys : Int) - 5, OffsetSrc.chapter)] := by
    unfold pageOffsetCandidates
    rw [show tocChapters synthToc = [⟨0, "1", "Origins", 5⟩] from rfl]
    dsimp only
    rw [show firstSectionOf synthToc ⟨0, "1", "Origins", 5⟩ = none from rfl]
    rw [hlen]
    have hmem : phys ∈ List.range' (last_toc_page + 1)
        (min (last_toc_page + 50) numPages - (last_toc_page + 1)) := by
      rw [List.mem_range'_1]
      omega
    rw [flatMap_eq_single _ _ phys hmem (List.nodup_range' _ _) ?hz]
    case hz =>
      intro b hb hbne
      rw [List.mem_range'_1] at hb
      rw [hget b (by omega)]
      simp only [synthPage, if_neg hbne]
      rfl
    rw [hget phys (by omega)]
    simp only [synthPage, if_pos rfl]
    rfl
  have hresult : find_page_offset (synthPdf numPages phys) synthToc last_toc_page
      = (match pageOffsetCandidates (synthPdf numPages phys) synthToc last_toc_page with
        | [] => Except.error "Could not determine page offset"
        | c :: rest =>
          match (c :: rest).filter (fun co => co.2 == OffsetSrc.chapter) with
          | o :: _ => Except.ok o.1
          | [] => Except.ok c.1) := rfl
  rw [hresult, hcand]
  rfl

/-- Witness for C1: with the TOC ending at physical page 2 and the chapter
page (printed page 5) placed at physical index 9 in a 60-page document, the
resolver returns offset 4 = 9 - 5, matching the spec scenario. -/
theorem find_page_offset_recovers_offset_witness :
    find_page_offset (synthPdf 60 9) synthToc 2 = Except.ok ((9 : Int) - 5) :=
  find_page_offset_recovers_offset 9 2 60 (by decide) (by decide)

/-- Witness for C2: on the synthetic document the candidate list has a
chapter-tagged head, and the resolver returns its offset. -/
theorem find_page_offset_selection_witness :
    find_page_offset (synthPdf 60 9) synthToc 2 = Except.ok (4 : Int) :=
  (find_page_offset_selection (synthPdf 60 9) synthToc 2).2.1
    ((4 : Int), OffsetSrc.chapter) (by decide)

/-! Embedding of `extract_chapter_sections`
(src/pdf/content_extractor.py, lines 77-264) together with the exception
model of src/exceptions/pdf_exceptions.py.  The external tiktoken encoder is
modelled by a `tokenCount` parameter (the length of `enc.encode(...)`); the
resource monitor's `throttle_if_needed` waits are modelled by a `throttle`
schedule: `throttle e` is the wait introduced at the checkpoint reached at
elapsed time `e`, and every page processed advances elapsed time by one
unit.  The elapsed time is returned alongside the extraction output so the
pacing claim can be stated. -/

/-- Exception model mirroring the class hierarchy of pdf_exceptions.py,
flattened into constructors; `pdfExtractionError` is the base class
`PDFExtractionError` itself (which is what the extractor raises), and
`valueError` models Python's built-in `ValueError`. -/
inductive PdfError where
  | pdfExtractionError (msg : String)
  | tocNotFoundError (msg : String)
  | chapterNotFoundError (msg : String)
  | pageOffsetError (msg : String)
  | contentExtractionError (msg : String)
  | valueError (msg : String)
deriving DecidableEq

/-- The `str(e)` message of a raised error. -/
def PdfError.message : PdfError → String
  | pdfExtractionError m => m
  | tocNotFoundError m => m
  | chapterNotFoundError m => m
  | pageOffsetError m => m
  | contentExtractionError m => m
  | valueError m => m

/-- Whether a result failed specifically with the `ChapterNotFoundError`
subclass. -/
def resultIsChapterNotFound {α : Type} : Except PdfError α → Bool
  | Except.error (PdfError.chapterNotFoundError _) => true
  | _ => false

/-- Python `int(s)` for base-10 literals: strip whitespace, optional sign,
then a nonempty digit string; `none` models the `ValueError` raise. -/
def pyInt? (s : String) : Option Int :=
  match chStrip s.toList with
  | '-' :: rest =>
    if !rest.isEmpty && rest.all isPyDigit then some (-(digitsToNat rest : Int)) else none
  | '+' :: rest =>
    if !rest.isEmpty && rest.all isPyDigit then some (digitsToNat rest : Int) else none
  | l =>
    if !l.isEmpty && l.all isPyDigit then some (digitsToNat l : Int) else none

/-- Reading page `n` inside `process_page_batch`: indices at or beyond the
document length are skipped by the explicit guard `page_num >=
len(pdf.pages)`; negative indices follow Python list semantics (wrap from
the end while in range; an `IndexError` below `-len` is caught by the
batch's exception handler and skipped). -/
def readPageText (pdf : Pdf) (n : Int) : Option String :=
  if (pdf.pages.length : Int) ≤ n then none
  else if 0 ≤ n then (pdf.pages[n.toNat]?).map Page.text
  else if -n ≤ (pdf.pages.length : Int) then
    (pdf.pages[pdf.pages.length - (-n).toNat]?).map Page.text
  else none

/-- `' '.join(text.split())`: whitespace normalization of extracted text. -/
def normalizeWs (s : String) : String :=
  ⟨chJoin [' '] (wsplit s.toList)⟩

/-- `range(start, stop, step)` over integers for a non-negative step (the
source only uses positive steps; a zero step raises before iterating). -/
def pyRangeStep (start stop : Int) (step : Nat) : List Int :=
  if step = 0 then []
  else (List.range (((stop - start).toNat + step - 1) / step)).map
    (fun k => start + (k * step : Nat))

/-- Embedding of `process_page_batch`: for each page index a throttle
checkpoint may wait and one unit of work elapses, then the page is read
unless out of range, whitespace-normalized, and kept when its stripped text
is nonempty; unreadable pages are skipped without failing.  Returns the
kept texts and the elapsed time after the batch. -/
def process_page_batch (pdf : Pdf) (throttle : Nat → Nat) :
    List Int → Nat → List String × Nat
  | [], elapsed => ([], elapsed)
  | n :: rest, elapsed =>
    let elapsed1 := elapsed + throttle elapsed + 1
    let r := process_page_batch pdf throttle rest elapsed1
    match readPageText pdf n with
    | none => (r.1, r.2)
    | some t =>
      if (chStrip t.toList).isEmpty then (r.1, r.2)
      else (normalizeWs t :: r.1, r.2)

/-- The per-section batch loop: a throttle checkpoint before each batch of
`batch_size` consecutive page indices, whose texts are concatenated in
order. -/
def processBatches (pdf : Pdf) (throttle : Nat → Nat) (batch_size : Nat)
    (end_page : Int) : List Int → Nat → List String × Nat
  | [], elapsed => ([], elapsed)
  | bstart :: rest, elapsed =>
    let elapsed1 := elapsed + throttle elapsed
    let batch_pages := pyRangeStep bstart (min (bstart + (batch_size : Int)) end_page) 1
    let r1 := process_page_batch pdf throttle batch_pages elapsed1
    let r2 := processBatches pdf throttle batch_size end_page rest r1.2
    (r1.1 ++ r2.1, r2.2)

/-- Group the paragraphs of an oversized section (content_extractor.py lines
218-233): accumulate paragraphs, flushing the current part once the running
character count exceeds `avg` and the part is nonempty; the final nonempty
part is flushed at the end. -/
def groupParas (avg : Nat) : List String → List String → Nat → List (List String)
  | [], current, _ => if current.isEmpty then [] else [current]
  | p :: rest, current, current_length =>
    let cl := current_length + p.length
    if cl > avg && !current.isEmpty then
      current :: groupParas avg rest [p] p.length
    else
      groupParas avg rest (current ++ [p]) cl

/-- The splitting step for one oversized section: split on newlines, group
paragraphs by the character-count heuristic `avg_chars_per_part =
content_length // (num_tokens // max_tokens + 1)`, and join each group back
with newlines. -/
def splitOversized (content : String) (num_tokens max_tokens : Nat) : List String :=
  let avg := content.length / (num_tokens / max_tokens + 1)
  (groupParas avg (pySplitNl content) [] 0).map pyJoinNl

/-- Content handling for one section: split only when the character count
exceeds `MAX_CHARS = max_tokens * 4` and the encoder's token count exceeds
`max_tokens`; otherwise keep the section whole. -/
def sectionParts (tokenCount : String → Nat) (max_tokens : Nat) (content : String) :
    List String :=
  if content.length > max_tokens * 4 then
    if tokenCount content > max_tokens then
      splitOversized content (tokenCount content) max_tokens
    else [content]
  else [content]

/-- Python dict assignment `d[k] = v` on an insertion-ordered association
list: replace in place when the key exists, append otherwise. -/
def dictInsert {α : Type} (d : List (String × α)) (k : String) (v : α) :
    List (String × α) :=
  if d.any (fun kv => kv.1 == k) then
    d.map (fun kv => if kv.1 == k then (k, v) else kv)
  else d ++ [(k, v)]

/-- Store the split parts of a section under 1-based sub-keys
`"{base}.{j}"`. -/
def storeParts (acc : List (String × String)) (base : String) :
    List String → Nat → List (String × String)
  | [], _ => acc
  | p :: rest, j =>
    storeParts (dictInsert acc (base ++ "." ++ toString j) p) base rest (j + 1)

/-- The `next()` scan for the entry with `int(entry['number']) ==
desired_chapter + 1`; `int()` on a malformed level-0 number raises
`ValueError`, which propagates out of the generator. -/
def findNextChapter : List TocEntry → Int → Except PdfError (Option TocEntry)
  | [], _ => Except.ok none
  | e :: rest, target =>
    if e.level == 0 then
      match pyInt? e.number with
      | none => Except.error (PdfError.valueError
          ("invalid literal for int() with base 10: " ++ e.number))
      | some v =>
        if v == target then Except.ok (some e) else findNextChapter rest target
    else findNextChapter rest target

/-- `pdf_limit`: the next chapter's physical start when one exists, else the
current chapter's start plus `MAX_PAGES_PER_SECTION` (50) capped at the
document length. -/
def pdfLimit (chapter : TocEntry) (next_chapter : Option TocEntry)
    (page_offset : Int) (numPages : Nat) : Int :=
  match next_chapter with
  | some nc => (nc.page : Int) + page_offset
  | none => min ((chapter.page : Int) + page_offset + 50) (numPages : Int)

/-- The per-section physical page ranges computed by the extraction loop:
`start = section.page + offset`; `end` is the next section's start capped at
`pdf_limit` or, for the last section, `start + 50` capped at `pdf_limit`. -/
def sectionBounds (page_offset limit : Int) : List TocEntry → List (Int × Int)
  | [] => []
  | [s] => [((s.page : Int) + page_offset,
      min ((s.page : Int) + page_offset + 50) limit)]
  | s :: t :: rest =>
    ((s.page : Int) + page_offset, min ((t.page : Int) + page_offset) limit) ::
      sectionBounds page_offset limit (t :: rest)

/-- The main extraction loop over sections paired with their page bounds:
read and clean each range in batches, skip sections with no extracted
content, split oversized content via the character heuristic, and store
results keyed as the source does (`section.number` and `.part` variants for
level-1 sections, the chapter number for the whole-chapter placeholder). -/
def extractSections (pdf : Pdf) (throttle : Nat → Nat)
    (tokenCount : String → Nat) (max_tokens batch_size : Nat)
    (desired_chapter : Int) :
    List (TocEntry × (Int × Int)) → Nat → List (String × String) →
      List (String × String) × Nat
  | [], elapsed, acc => (acc, elapsed)
  | (sec, (start_page, end_page)) :: rest, elapsed, acc =>
    let bstarts := pyRangeStep start_page end_page batch_size
    let r := processBatches pdf throttle batch_size end_page bstarts elapsed
    if r.1.isEmpty then
      extractSections pdf throttle tokenCount max_tokens batch_size
        desired_chapter rest r.2 acc
    else
      let section_content := pyJoinNl r.1
      let elapsed2 := if section_content.length > max_tokens * 4 then
          r.2 + throttle r.2 else r.2
      if section_content.length > max_tokens * 4 &&
          tokenCount section_content > max_tokens then
        let base := if sec.level == 1 then sec.number else toString desired_chapter
        extractSections pdf throttle tokenCount max_tokens batch_size
          desired_chapter rest elapsed2
          (storeParts acc base
            (splitOversized section_content (tokenCount section_content) max_tokens) 1)
      else
        let key := if sec.level == 1 then sec.number else toString desired_chapter
        extractSections pdf throttle tokenCount max_tokens batch_size
          desired_chapter rest elapsed2 (dictInsert acc key section_content)

/-- The f-string `f"Chapter {desired_chapter} not found in TOC"`. -/
def chapterNotFoundMsg (n : Int) : String :=
  "Chapter " ++ toString n ++ " not found in TOC"

/-- The f-string `f"Failed to extract chapter {desired_chapter}: {str(e)}"`
of the outer exception handler. -/
def extractFailMsg (n : Int) (inner : String) : String :=
  "Failed to extract chapter " ++ toString n ++ ": " ++ inner

/-- Embedding of `extract_chapter_sections`: locate the chapter entry
(failing like the source with the base `PDFExtractionError`), collect its
level-1 sections (falling back to the chapter itself), find the next
chapter for the hard limit, compute per-section page bounds, extract and
split, and attach the question distribution.  Any inner failure is wrapped
by the outer `except` clause into
`PDFExtractionError("Failed to extract chapter N: ...")`. -/
def extractInner (pdf : Pdf) (toc : TocStructure)
    (page_offset : Int) (desired_chapter : Int)
    (tokenCount : String → Nat) (max_tokens : Nat) (batch_size : Nat)
    (total_questions : Nat) (throttle : Nat → Nat) :
    Except PdfError ((List (String × String)) × (List (String × Nat)) × Nat) :=
  match toc.entries.find?
      (fun e => e.level == 0 && e.number == toString desired_chapter) with
  | none => Except.error (PdfError.pdfExtractionError
      (chapterNotFoundMsg desired_chapter))
  | some chapter =>
    let secs := toc.entries.filter (fun e =>
      e.level == 1 && pyStartsWith e.number (toString desired_chapter ++ "."))
    let chapter_sections := if secs.isEmpty then [chapter] else secs
    match findNextChapter toc.entries (desired_chapter + 1) with
    | Except.error e => Except.error e
    | Except.ok next_chapter =>
      if batch_size == 0 then
        Except.error (PdfError.valueError "range() arg 3 must not be zero")
      else
        let limit := pdfLimit chapter next_chapter page_offset pdf.pages.length
        let bounds := sectionBounds page_offset limit chapter_sections
        let r := extractSections pdf throttle tokenCount max_tokens batch_size
          desired_chapter (chapter_sections.zip bounds) 0 []
        Except.ok (r.1, distribute_questions r.1 total_questions, r.2)

/-- The outer `except` clause: any inner failure is wrapped into
`PDFExtractionError("Failed to extract chapter N: ...")`. -/
def extract_chapter_sections (pdf : Pdf) (toc : TocStructure)
    (page_offset : Int) (desired_chapter : Int)
    (tokenCount : String → Nat) (max_tokens : Nat) (batch_size : Nat)
    (total_questions : Nat) (throttle : Nat → Nat) :
    Except PdfError ((List (String × String)) × (List (String × Nat)) × Nat) :=
  match extractInner pdf toc page_offset desired_chapter tokenCount max_tokens
      batch_size total_questions throttle with
  | Except.ok r => Except.ok r
  | Except.error e => Except.error (PdfError.pdfExtractionError
      (extractFailMsg desired_chapter e.message))

lemma process_page_batch_fst (pdf : Pdf) (t1 t2 : Nat → Nat) (ns : List Int) :
    ∀ e1 e2 : Nat,
      (process_page_batch pdf t1 ns e1).1 = (process_page_batch pdf t2 ns e2).1 := by
  induction ns with
  | nil => intro e1 e2; rfl
  | cons n rest ih =>
    intro e1 e2
    simp only [process_page_batch]
    cases hr : readPageText pdf n with
    | none => exact ih _ _
    | some t =>
      by_cases h : (chStrip t.toList).isEmpty = true
      · simp only [if_pos h]
        exact ih _ _
      · simp only [if_neg h]
        rw [ih (e1 + t1 e1 + 1) (e2 + t2 e2 + 1)]

lemma processBatches_fst (pdf : Pdf) (t1 t2 : Nat → Nat) (bs : Nat) (ep : Int)
    (l : List Int) :
    ∀ e1 e2 : Nat,
      (processBatches pdf t1 bs ep l e1).1 = (processBatches pdf t2 bs ep l e2).1 := by
  induction l with
  | nil => intro e1 e2; rfl
  | cons b rest ih =>
    intro e1 e2
    simp only [processBatches]
    rw [process_page_batch_fst pdf t1 t2
      (pyRangeStep b (min (b + (bs : Int)) ep) 1) (e1 + t1 e1) (e2 + t2 e2)]
    rw [ih _ _]

lemma extractSections_fst (pdf : Pdf) (t1 t2 : Nat → Nat)
    (tokenCount : String → Nat) (mt bs : Nat) (ch : Int)
    (l : List (TocEntry × (Int × Int))) :
    ∀ (e1 e2 : Nat) (acc : List (String × String)),
      (extractSections pdf t1 tokenCount mt bs ch l e1 acc).1
        = (extractSections pdf t2 tokenCount mt bs ch l e2 acc).1 := by
  induction l with
  | nil => intro e1 e2 acc; rfl
  | cons p rest ih =>
    intro e1 e2 acc
    obtain ⟨sec, start_page, end_page⟩ := p
    simp only [extractSections]
    rw [processBatches_fst pdf t1 t2 bs end_page
      (pyRangeStep start_page end_page bs) e1 e2]
    by_cases hemp :
        ((processBatches pdf t2 bs end_page
          (pyRangeStep start_page end_page bs) e2).1).isEmpty = true
    · simp only [if_pos hemp]
      exact ih _ _ _
    · simp only [if_neg hemp]
      by_cases hsplit :
          ((pyJoinNl (processBatches pdf t2 bs end_page
              (pyRangeStep start_page end_page bs) e2).1).length > mt * 4
            && tokenCount (pyJoinNl (processBatches pdf t2 bs end_page
              (pyRangeStep start_page end_page bs) e2).1) > mt) = true
      · simp only [hsplit]
        exact ih _ _ _
      · simp only [hsplit]
        exact ih _ _ _

/-- C9: extraction output is independent of the throttle schedule.  Two runs
of `extract_chapter_sections` on the same document, structure, offset,
chapter, encoder and budgets return identical section maps and identical
question distributions — and identical errors — for any two throttle
schedules; throttling only changes the elapsed-time component.  With equal
schedules this also gives idempotence of re-runs. -/
theorem extract_chapter_sections_throttle_independent (pdf : Pdf)
    (toc : TocStructure) (page_offset desired_chapter : Int)
    (tokenCount : String → Nat) (max_tokens batch_size total_questions : Nat)
    (t1 t2 : Nat → Nat) :
    (extract_chapter_sections pdf toc page_offset desired_chapter tokenCount
      max_tokens batch_size total_questions t1).map (fun r => (r.1, r.2.1))
    = (extract_chapter_sections pdf toc page_offset desired_chapter tokenCount
      max_tokens batch_size total_questions t2).map (fun r => (r.1, r.2.1)) := by
  have hinner : (extractInner pdf toc page_offset desired_chapter tokenCount
      max_tokens batch_size total_questions t1).map (fun r => (r.1, r.2.1))
      = (extractInner pdf toc page_offset desired_chapter tokenCount
        max_tokens batch_size total_questions t2).map (fun r => (r.1, r.2.1)) := by
    unfold extractInner
    cases hfind : toc.entries.find?
        (fun e => e.level == 0 && e.number == toString desired_chapter) with
    | none => rfl
    | some chapter =>
      dsimp only
      cases hnext : findNextChapter toc.entries (desired_chapter + 1) with
      | error e => rfl
      | ok next_chapter =>
        dsimp only
        by_cases hbs : (batch_size == 0) = true
        · simp only [if_pos hbs]
        · simp only [if_neg hbs]
          rw [extractSections_fst pdf t1 t2 tokenCount max_tokens batch_size
            desired_chapter _ 0 0 []]
          rfl
  unfold extract_chapter_sections
  cases h1 : extractInner pdf toc page_offset desired_chapter tokenCount
      max_tokens batch_size total_questions t1 with
  | ok r1 =>
    cases h2 : extractInner pdf toc page_offset desired_chapter tokenCount
        max_tokens batch_size total_questions t2 with
    | ok r2 =>
      rw [h1, h2] at hinner
      exact hinner
    | error e2 =>
      rw [h1, h2] at hinner
      simp only [Except.map] at hinner
      cases hinner
  | error e1 =>
    cases h2 : extractInner pdf toc page_offset desired_chapter tokenCount
        max_tokens batch_size total_questions t2 with
    | ok r2 =>
      rw [h1, h2] at hinner
      simp only [Except.map] at hinner
      cases hinner
    | error e2 =>
      rw [h1, h2] at hinner
      simp only [Except.map, Except.error.injEq] at hinner
      subst hinner
      rfl

/-- C6 (amended): when no level-0 entry matches the requested chapter,
`extract_chapter_sections` fails with no partial result, raising the base
`PDFExtractionError` (message "Chapter N not found in TOC", wrapped by the
outer handler into "Failed to extract chapter N: ...") — not the
`ChapterNotFoundError` subclass that pdf_exceptions.py declares for this
situation. -/
theorem extract_chapter_not_found (pdf : Pdf) (toc : TocStructure)
    (page_offset desired_chapter : Int) (tokenCount : String → Nat)
    (max_tokens batch_size total_questions : Nat) (throttle : Nat → Nat)
    (h : toc.entries.find?
      (fun e => e.level == 0 && e.number == toString desired_chapter) = none) :
    extract_chapter_sections pdf toc page_offset desired_chapter tokenCount
        max_tokens batch_size total_questions throttle
      = Except.error (PdfError.pdfExtractionError
          (extractFailMsg desired_chapter (chapterNotFoundMsg desired_chapter))) := by
  unfold extract_chapter_sections extractInner
  rw [h]
  rfl

/-- Witness for the amended C6 theorem at a concrete empty structure. -/
theorem extract_chapter_not_found_witness :
    extract_chapter_sections ⟨[]⟩ ⟨[]⟩ 0 3 (fun s => s.length) 75000 3 15
      (fun _ => 0)
      = Except.error (PdfError.pdfExtractionError
          "Failed to extract chapter 3: Chapter 3 not found in TOC") := by
  rw [extract_chapter_not_found ⟨[]⟩ ⟨[]⟩ 0 3 (fun s => s.length) 75000 3 15
    (fun _ => 0) rfl]
  rfl

/-- C6 counterexample: on a structure without the requested chapter the
extractor does fail, but the raised exception is not the
`ChapterNotFoundError` subclass the claim names. -/
theorem extract_chapter_not_found_counterexample :
    resultIsChapterNotFound (extract_chapter_sections ⟨[]⟩ ⟨[]⟩ 0 3
        (fun s => s.length) 75000 3 15 (fun _ => 0)) = false
    ∧ exceptIsError (extract_chapter_sections ⟨[]⟩ ⟨[]⟩ 0 3
        (fun s => s.length) 75000 3 15 (fun _ => 0)) = true := by
  exact ⟨rfl, rfl⟩

lemma sectionBounds_ne_nil (page_offset limit : Int) :
    ∀ l : List TocEntry, l ≠ [] → sectionBounds page_offset limit l ≠ []
  | [], h => absurd rfl h
  | [_], _ => by simp [sectionBounds]
  | _ :: _ :: _, _ => by simp [sectionBounds]

lemma getLast?_cons_of_ne_nil {α : Type} (a : α) (l : List α) (h : l ≠ []) :
    (a :: l).getLast? = l.getLast? := by
  cases l with
  | nil => exact absurd rfl h
  | cons b t => exact List.getLast?_cons_cons

lemma sectionBounds_getLast (page_offset limit : Int) (s : TocEntry) :
    ∀ cs : List TocEntry,
      (sectionBounds page_offset limit (cs ++ [s])).getLast?
        = some ((s.page : Int) + page_offset,
            min ((s.page : Int) + page_offset + 50) limit) := by
  intro cs
  induction cs with
  | nil => rfl
  | cons c cs' ih =>
    cases cs' with
    | nil => rfl
    | cons d ds =>
      simp only [List.cons_append] at ih ⊢
      rw [sectionBounds, getLast?_cons_of_ne_nil _ _
        (sectionBounds_ne_nil page_offset limit (d :: (ds ++ [s])) (by simp))]
      exact ih

/-- C5 (amended): for a chapter with no following chapter in the structure,
the last section's computed extraction end page is
`min(section start + 50, chapter start + 50, document length)` — the
document-length cap enters through `pdf_limit`, which also caps at the
chapter's start plus 50 — and no page index at or beyond the document
length is ever read (the batch reader skips them). -/
theorem extraction_end_page_last_chapter (chapter : TocEntry)
    (page_offset : Int) (numPages : Nat) (cs : List TocEntry) (s : TocEntry) :
    (sectionBounds page_offset (pdfLimit chapter none page_offset numPages)
        (cs ++ [s])).getLast?
      = some ((s.page : Int) + page_offset,
          min ((s.page : Int) + page_offset + 50)
            (min ((chapter.page : Int) + page_offset + 50) (numPages : Int)))
    ∧ ∀ (pdf : Pdf) (n : Int), (pdf.pages.length : Int) ≤ n →
        readPageText pdf n = none := by
  constructor
  · rw [sectionBounds_getLast]
    rfl
  · intro pdf n hn
    unfold readPageText
    rw [if_pos hn]

/-- C5 counterexample: chapter 7 starts at printed page 10, its last section
7.2 at printed page 30, offset 0, a 100-page document and no next chapter.
The computed end page is 60 (capped by chapter start + 50 through
`pdf_limit`), not `min(section start + 50, document length) = 80` as the
claim states. -/
theorem extraction_end_page_counterexample :
    (sectionBounds 0 (pdfLimit ⟨0, "7", "Ch", 10⟩ none 0 100)
        [⟨1, "7.1", "A", 10⟩, ⟨1, "7.2", "B", 30⟩]).getLast?
      = some (30, 60)
    ∧ (60 : Int) ≠ min ((30 : Int) + 50) (100 : Int) := by
  constructor
  · rfl
  · decide

lemma chSplit_ne_nil (c : Char) (l : List Char) : chSplit c l ≠ [] := by
  cases l with
  | nil => simp [chSplit]
  | cons a rest =>
    simp only [chSplit]
    cases h : chSplit c rest with
    | nil => simp
    | cons g gs =>
      by_cases ha : a = c
      · simp [ha]
      · simp [ha]

lemma chJoin_cons_cons (sep g1 g2 : List Char) (gs : List (List Char)) :
    chJoin sep (g1 :: g2 :: gs) = g1 ++ sep ++ chJoin sep (g2 :: gs) := rfl

lemma chJoin_chSplit (c : Char) (l : List Char) : chJoin [c] (chSplit c l) = l := by
  induction l with
  | nil => rfl
  | cons a rest ih =>
    simp only [chSplit]
    cases h : chSplit c rest with
    | nil => exact absurd h (chSplit_ne_nil c rest)
    | cons g gs =>
      rw [h] at ih
      dsimp only
      by_cases ha : a = c
      · rw [if_pos ha, chJoin_cons_cons, ih]
        subst ha
        simp
      · rw [if_neg ha]
        cases gs with
        | nil =>
          simp only [chJoin] at ih ⊢
          rw [ih]
        | cons g2 gs2 =>
          rw [chJoin_cons_cons]
          rw [chJoin_cons_cons] at ih
          rw [← ih]
          simp

lemma chJoin_append (sep : List Char) :
    ∀ as bs : List (List Char), as ≠ [] → bs ≠ [] →
      chJoin sep (as ++ bs) = chJoin sep as ++ sep ++ chJoin sep bs := by
  intro as
  induction as with
  | nil => intro bs h _; exact absurd rfl h
  | cons a as' ih =>
    intro bs _ hb
    cases as' with
    | nil =>
      cases bs with
      | nil => exact absurd rfl hb
      | cons b bs' => rfl
    | cons a2 as'' =>
      have hrec := ih bs (by simp) hb
      calc chJoin sep ((a :: a2 :: as'') ++ bs)
          = a ++ sep ++ chJoin sep ((a2 :: as'') ++ bs) := by
            simp only [List.cons_append]
            rw [chJoin_cons_cons]
        _ = a ++ sep ++ (chJoin sep (a2 :: as'') ++ sep ++ chJoin sep bs) := by
            rw [hrec]
        _ = (a ++ sep ++ chJoin sep (a2 :: as'')) ++ sep ++ chJoin sep bs := by
            simp [List.append_assoc]
        _ = chJoin sep (a :: a2 :: as'') ++ sep ++ chJoin sep bs := by
            rw [chJoin_cons_cons]

lemma chJoin_flatten (sep : List Char) :
    ∀ gs : List (List (List Char)), (∀ g ∈ gs, g ≠ []) →
      chJoin sep (gs.map (chJoin sep)) = chJoin sep gs.flatten := by
  intro gs
  induction gs with
  | nil => intro _; rfl
  | cons g rest ih =>
    intro h
    cases rest with
    | nil => simp [chJoin]
    | cons r rs =>
      have hg : g ≠ [] := h g (by simp)
      have hflat : (r :: rs).flatten ≠ [] := by
        have hr : r ≠ [] := h r (by simp)
        cases r with
        | nil => exact absurd rfl hr
        | cons x xs => simp
      have hrec := ih (fun g2 hg2 => h g2 (by simp [hg2]))
      calc chJoin sep ((g :: r :: rs).map (chJoin sep))
          = chJoin sep g ++ sep ++ chJoin sep ((r :: rs).map (chJoin sep)) := by
            simp only [List.map_cons]
            rw [chJoin_cons_cons]
        _ = chJoin sep g ++ sep ++ chJoin sep (r :: rs).flatten := by rw [hrec]
        _ = chJoin sep (g ++ (r :: rs).flatten) := by
            rw [chJoin_append sep g _ hg hflat]
        _ = chJoin sep (g :: r :: rs).flatten := by
            simp [List.flatten_cons]

lemma groupParas_flatten (avg : Nat) :
    ∀ (ps cur : List String) (n : Nat),
      (groupParas avg ps cur n).flatten = cur ++ ps := by
  intro ps
  induction ps with
  | nil =>
    intro cur n
    cases cur with
    | nil => simp [groupParas]
    | cons a t => simp [groupParas]
  | cons p rest ih =>
    intro cur n
    simp only [groupParas]
    by_cases h : ((n + p.length > avg) && !cur.isEmpty) = true
    · rw [if_pos h]
      simp [ih]
    · rw [if_neg h]
      simp [ih]

lemma groupParas_groups_ne_nil (avg : Nat) :
    ∀ (ps cur : List String) (n : Nat) (g : List String),
      g ∈ groupParas avg ps cur n → g ≠ [] := by
  intro ps
  induction ps with
  | nil =>
    intro cur n g hg
    cases cur with
    | nil => simp [groupParas] at hg
    | cons a t =>
      simp [groupParas] at hg
      subst hg
      simp
  | cons p rest ih =>
    intro cur n g hg
    simp only [groupParas] at hg
    by_cases h : ((n + p.length > avg) && !cur.isEmpty) = true
    · rw [if_pos h] at hg
      rcases List.mem_cons.mp hg with hcur | hmem
      · subst hcur
        intro hnil
        rw [hnil] at h
        simp at h
      · exact ih _ _ _ hmem
    · rw [if_neg h] at hg
      exact ih _ _ _ hg

lemma groupParas_ne_nil (avg : Nat) :
    ∀ (ps cur : List String) (n : Nat), ps ≠ [] ∨ cur ≠ [] →
      groupParas avg ps cur n ≠ [] := by
  intro ps
  induction ps with
  | nil =>
    intro cur n h
    have hcur : cur ≠ [] := by
      rcases h with h1 | h2
      · exact absurd rfl h1
      · exact h2
    have : cur.isEmpty = false := by
      cases cur with
      | nil => exact absurd rfl hcur
      | cons a t => rfl
    simp [groupParas, this]
  | cons p rest ih =>
    intro cur n _
    simp only [groupParas]
    by_cases h : ((n + p.length > avg) && !cur.isEmpty) = true
    · rw [if_pos h]
      simp
    · rw [if_neg h]
      exact ih _ _ (Or.inr (by simp))

lemma pySplitNl_ne_nil (s : String) : pySplitNl s ≠ [] := by
  unfold pySplitNl
  cases h : chSplit '\n' s.toList with
  | nil => exact absurd h (chSplit_ne_nil '\n' s.toList)
  | cons g gs => simp

lemma pyJoinNl_map (gs : List (List String)) (h : ∀ g ∈ gs, g ≠ []) :
    pyJoinNl (gs.map pyJoinNl) = pyJoinNl gs.flatten := by
  unfold pyJoinNl
  refine congrArg (fun l : List Char => (⟨l⟩ : String)) ?_
  rw [List.map_map]
  have e1 : (String.toList ∘ fun parts => (⟨chJoin ['\n'] (parts.map String.toList)⟩ : String))
      = fun parts : List String => chJoin ['\n'] (parts.map String.toList) := rfl
  rw [e1]
  have e2 : gs.map (fun parts : List String => chJoin ['\n'] (parts.map String.toList))
      = (gs.map (List.map String.toList)).map (chJoin ['\n']) := by
    rw [List.map_map]
    rfl
  rw [e2, chJoin_flatten ['\n'] (gs.map (List.map String.toList)) ?hne]
  · rw [← List.map_flatten]
  case hne =>
    intro g hg
    obtain ⟨g0, hg0, rfl⟩ := List.mem_map.mp hg
    intro hemp
    exact h g0 hg0 (List.map_eq_nil_iff.mp hemp)

lemma pyJoinNl_pySplitNl (s : String) : pyJoinNl (pySplitNl s) = s := by
  unfold pyJoinNl pySplitNl
  rw [List.map_map]
  have e1 : (String.toList ∘ fun l : List Char => (⟨l⟩ : String)) = id := rfl
  rw [e1, List.map_id, chJoin_chSplit]
  rfl

/-- C3 (amended): the splitting step always produces at least one part, and
the parts joined in order with the newline separator reconstruct the
original section text exactly (stronger than modulo whitespace
normalization).  No lower bound of `k+1` on the number of parts and no
per-part token bound is guaranteed: the split is driven by the character
heuristic `avg_chars_per_part`, not by re-encoding the parts. -/
theorem section_splitting_reconstructs (tokenCount : String → Nat)
    (max_tokens : Nat) (content : String) :
    pyJoinNl (sectionParts tokenCount max_tokens content) = content
    ∧ 1 ≤ (sectionParts tokenCount max_tokens content).length := by
  have hsingle : pyJoinNl [content] = content := rfl
  unfold sectionParts
  by_cases h1 : content.length > max_tokens * 4
  · rw [if_pos h1]
    by_cases h2 : tokenCount content > max_tokens
    · rw [if_pos h2]
      unfold splitOversized
      constructor
      · rw [pyJoinNl_map _ (fun g hg => groupParas_groups_ne_nil _ _ _ _ g hg)]
        rw [groupParas_flatten]
        rw [List.nil_append]
        exact pyJoinNl_pySplitNl content
      · rw [List.length_map]
        have := groupParas_ne_nil
          (content.length / (tokenCount content / max_tokens + 1))
          (pySplitNl content) [] 0 (Or.inl (pySplitNl_ne_nil content))
        exact Nat.one_le_iff_ne_zero.mpr (fun hz => this (List.length_eq_zero.mp hz))
    · rw [if_neg h2]
      exact ⟨hsingle, by simp⟩
  · rw [if_neg h1]
    exact ⟨hsingle, by simp⟩

/-- A concrete token counter — one token per character — standing in for
the opaque external encoder; many real strings tokenize at more than one
token per four characters, which is what this models. -/
def charTokens (s : String) : Nat := s.length

/-- C3 counterexample: with the character counter and `max_tokens = 2`, the
single-paragraph section "abcdefghijk" encodes to 11 = 5 * 2 + 1 tokens
(k = 5, r = 1), yet the splitting step returns a single part (not at least
k + 1 = 6), and that part re-encodes to 11 > 2 tokens. -/
theorem section_splitting_counterexample :
    charTokens "abcdefghijk" = 5 * 2 + 1
    ∧ sectionParts charTokens 2 "abcdefghijk" = ["abcdefghijk"]
    ∧ ¬(5 + 1 ≤ (sectionParts charTokens 2 "abcdefghijk").length)
    ∧ charTokens "abcdefghijk" > 2 := by
  refine ⟨rfl, rfl, ?_, by decide⟩
  rw [show sectionParts charTokens 2 "abcdefghijk" = ["abcdefghijk"] from rfl]
  decide

/-! Embedding of the `find_toc_pages` coordinator
(src/pdf/toc_detector.py, lines 20-151): the existence probe over the first
20 pages, the shared heading-pattern + horizontal-gap validator, and the
strategy cascade.  The four cascade members — in the source the concrete
functions `find_toc_pages_3` (enhanced), `find_toc_pages_2` (columnar),
`find_toc_pages_1` (numeric density) and `find_toc_pages_original` — are
taken as parameters here; the claims under test concern only the
coordinator's validation and dispatch, which treats each strategy's result
as an opaque page list. -/

/-- `TOC_START_TERMS` (a Python set; iteration order is irrelevant to the
`any(...)` uses). -/
def TOC_START_TERMS : List String :=
  ["content", "contents", "ontent", "ontents", "table of contents",
   "table of chapters", "chapter index", "chapter list"]

/-- `TOC_SKIP_TERMS`. -/
def TOC_SKIP_TERMS : List String :=
  ["brief contents", "contents at a glance"]

/-- Regex `\w` (ASCII model): letters, digits, underscore. -/
def wordChar (c : Char) : Bool :=
  c.isAlpha || isPyDigit c || c = '_'

/-- Whether a position boundary is a `\b` word boundary relative to the
neighbouring character. -/
def boundaryOk : Option Char → Bool
  | none => true
  | some c => !wordChar c

/-- Scan for `re.search(r'\b' + term + r'\b', text)`: the term occurs with
non-word characters (or the text ends) on both sides; `prev` is the
character before the current suffix. -/
def cwAux (term : List Char) (prev : Option Char) : List Char → Bool
  | [] => false
  | c :: rest =>
    (term.isPrefixOf (c :: rest) && boundaryOk prev
      && boundaryOk (((c :: rest).drop term.length).head?))
    || cwAux term (some c) rest

/-- `re.search(r'\b' + re.escape(term) + r'\b', text)` as a Boolean. -/
def containsWholeWord (text term : String) : Bool :=
  cwAux term.toList none text.toList

/-- Roman-numeral letters of the pattern `[ivxlcdm]+`. -/
def isRomanChar (c : Char) : Bool :=
  c = 'i' || c = 'v' || c = 'x' || c = 'l' || c = 'c' || c = 'd' || c = 'm'

/-- Literal prefix test used by the anchored regex alternatives. -/
def litLeads (l : List Char) (lit : String) : Bool :=
  lit.toList.isPrefixOf l

/-- `^\d+\.`: one or more digits then a dot (the maximal digit run must be
followed by the dot, since `.` is not a digit no backtracking applies). -/
def digitsThenDot (l : List Char) : Bool :=
  let ds := l.takeWhile isPyDigit
  !ds.isEmpty && ((l.drop ds.length).head? == some '.')

/-- `^[ivxlcdm]+\.`. -/
def romanThenDot (l : List Char) : Bool :=
  let rs := l.takeWhile isRomanChar
  !rs.isEmpty && ((l.drop rs.length).head? == some '.')

/-- `\s+` followed by a character satisfying `p` (the character classes used
after `appendix`/`part`/`section`/`unit` contain no whitespace, so the
maximal whitespace run is the only match). -/
def wsThen (p : Char → Bool) (l : List Char) : Bool :=
  let ws := l.takeWhile isPySpace
  !ws.isEmpty && (match (l.drop ws.length).head? with
    | some c => p c
    | none => false)

/-- First `toc_patterns` entry:
`^(chapter|summary|conclusion|introduction|\d+\.|appendix\s+[a-z]|[ivxlcdm]+\.)`. -/
def tocPattern1 (l : List Char) : Bool :=
  litLeads l "chapter" || litLeads l "summary" || litLeads l "conclusion"
    || litLeads l "introduction" || digitsThenDot l
    || (litLeads l "appendix" && wsThen (fun c => 'a' ≤ c && c ≤ 'z') (l.drop 8))
    || romanThenDot l

/-- `^\d+\.\d+`. -/
def tocPattern2 (l : List Char) : Bool :=
  let ds := l.takeWhile isPyDigit
  !ds.isEmpty && (match l.drop ds.length with
    | '.' :: rest =>
      (match rest.head? with
       | some c => isPyDigit c
       | none => false)
    | _ => false)

/-- `^[A-Z][\.\s]` (never matches the lowercased word text it is applied
to, embedded faithfully nonetheless). -/
def tocPattern3 (l : List Char) : Bool :=
  match l with
  | c1 :: c2 :: _ => ('A' ≤ c1 && c1 ≤ 'Z') && (c2 = '.' || isPySpace c2)
  | _ => false

/-- `^(part|section|unit)\s+[a-z0-9]`. -/
def tocPattern4 (l : List Char) : Bool :=
  (litLeads l "part"
    && wsThen (fun c => ('a' ≤ c && c ≤ 'z') || isPyDigit c) (l.drop 4))
  || (litLeads l "section"
    && wsThen (fun c => ('a' ≤ c && c ≤ 'z') || isPyDigit c) (l.drop 7))
  || (litLeads l "unit"
    && wsThen (fun c => ('a' ≤ c && c ≤ 'z') || isPyDigit c) (l.drop 4))

/-- `^[Ѐ-ӿ]+` (Cyrillic). -/
def tocPattern5 (l : List Char) : Bool :=
  match l.head? with
  | some c => decide (0x400 ≤ c.toNat) && decide (c.toNat ≤ 0x4FF)
  | none => false

/-- `any(re.match(pattern, word['text'].lower()) for pattern in
toc_patterns)`. -/
def matchesTocPattern (w : String) : Bool :=
  let l := (pyLower w).toList
  tocPattern1 l || tocPattern2 l || tocPattern3 l || tocPattern4 l || tocPattern5 l

/-- The inner scan of the heading-pattern + horizontal-gap test: some word
(other than the page's last) matches a TOC pattern, and among the next up
to 10 non-period words there is an all-digit token at least `minDist` to
the right of the heading word's left edge. -/
def hasValidEntryAux (minDist : Rat) : List Word → Bool
  | [] => false
  | w :: rest =>
    (!rest.isEmpty && matchesTocPattern w.text
      && ((rest.filter (fun x => x.text != ".")).take 10).any
        (fun x => pyIsDigit x.text && minDist < x.x0 - w.x0))
    || hasValidEntryAux minDist rest

/-- Whether a page's words contain at least one qualifying TOC entry. -/
def hasValidEntry (minDist : Rat) (words : List Word) : Bool :=
  hasValidEntryAux minDist words

/-- Placeholder page used only to model `pdf.pages[0]` on an empty
document. -/
def defaultPage : Page := ⟨"", [], 0⟩

/-- `page_width = float(pdf.pages[0].mediabox[2])`. -/
def pageWidth (pdf : Pdf) : Rat :=
  (pdf.pages.headD defaultPage).width

/-- `min_title_page_distance = page_width * 0.15`, with the float constant
0.15 modelled as the exact rational 15/100. -/
def minTitlePageDistance (pdf : Pdf) : Rat :=
  pageWidth pdf * (15 / 100)

/-- The existence probe (toc_detector.py lines 40-63): some page among the
first 20 whose lowercase text has a whole-word TOC-start term, no skip
term, and at least one qualifying heading-pattern entry. -/
def probeFound (pdf : Pdf) : Bool :=
  (List.range (min 20 pdf.pages.length)).any (fun i =>
    match pdf.pages[i]? with
    | none => false
    | some page =>
      let text := pyLower page.text
      (TOC_START_TERMS.any (fun term => containsWholeWord text term))
        && !(TOC_SKIP_TERMS.any (fun term => pyContains text term))
        && hasValidEntry (minTitlePageDistance pdf) page.words)

/-- `valid_entries`: how many of a strategy's returned pages show at least
one qualifying entry (each page counts at most once — the source breaks out
of the word scan after the first hit). -/
def validEntryPages (pdf : Pdf) (minDist : Rat) (pages : List Nat) : Nat :=
  (pages.filter (fun pn =>
    match pdf.pages[pn]? with
    | none => false
    | some page => hasValidEntry minDist page.words)).length

/-- The acceptance test applied to a strategy's output: nonempty, and
`valid_entries >= len(toc_pages) // 2` (floor division). -/
def stratAccepted (pdf : Pdf) (toc_pages : List Nat) : Bool :=
  !toc_pages.isEmpty
    && validEntryPages pdf (minTitlePageDistance pdf) toc_pages ≥ toc_pages.length / 2

/-- Embedding of the `find_toc_pages` coordinator: probe for TOC existence,
then try the strategies in priority order (enhanced, columnar, numeric
density), returning the first whose output passes the acceptance test, and
fall back to the original strategy's raw output. -/
def find_toc_pages (pdf : Pdf)
    (strat3 strat2 strat1 strat0 : Pdf → List Nat) : List Nat :=
  if !(probeFound pdf) then []
  else if stratAccepted pdf (strat3 pdf) then strat3 pdf
  else if stratAccepted pdf (strat2 pdf) then strat2 pdf
  else if stratAccepted pdf (strat1 pdf) then strat1 pdf
  else strat0 pdf

/-- C8 (amended): the coordinator's dispatch.  With no TOC-existence probe
hit the result is empty; otherwise the strategies are tried in priority
order and the first whose output passes the acceptance test — nonempty and
`valid_entries >= len(toc_pages) // 2`, i.e. at least HALF ROUNDED DOWN of
the returned pages qualify — is returned as-is; when none passes, the
last-resort original strategy's raw output is returned without any
validation. -/
theorem find_toc_pages_cascade (pdf : Pdf)
    (strat3 strat2 strat1 strat0 : Pdf → List Nat) :
    (probeFound pdf = false → find_toc_pages pdf strat3 strat2 strat1 strat0 = [])
    ∧ (probeFound pdf = true →
      (stratAccepted pdf (strat3 pdf) = true →
        find_toc_pages pdf strat3 strat2 strat1 strat0 = strat3 pdf)
      ∧ (stratAccepted pdf (strat3 pdf) = false →
          stratAccepted pdf (strat2 pdf) = true →
          find_toc_pages pdf strat3 strat2 strat1 strat0 = strat2 pdf)
      ∧ (stratAccepted pdf (strat3 pdf) = false →
          stratAccepted pdf (strat2 pdf) = false →
          stratAccepted pdf (strat1 pdf) = true →
          find_toc_pages pdf strat3 strat2 strat1 strat0 = strat1 pdf)
      ∧ (stratAccepted pdf (strat3 pdf) = false →
          stratAccepted pdf (strat2 pdf) = false →
          stratAccepted pdf (strat1 pdf) = false →
          find_toc_pages pdf strat3 strat2 strat1 strat0 = strat0 pdf)) := by
  constructor
  · intro h
    simp [find_toc_pages, h]
  · intro hp
    refine ⟨?_, ?_, ?_, ?_⟩
    · intro h3
      simp [find_toc_pages, hp, h3]
    · intro h3 h2
      simp [find_toc_pages, hp, h3, h2]
    · intro h3 h2 h1
      simp [find_toc_pages, hp, h3, h2, h1]
    · intro h3 h2 h1
      simp [find_toc_pages, hp, h3, h2, h1]

/-- A concrete two-page document: page 0 passes the TOC-existence probe
(whole word "contents" and a qualifying heading-to-number entry), page 1 is
junk with no words at all. -/
def cexProbePage : Page :=
  ⟨"contents", [⟨"chapter", 0, 0, 0⟩, ⟨"7", 200, 0, 0⟩], 612⟩

/-- The junk page: no positioned words, so no page built from it can carry
a qualifying entry. -/
def cexJunkPage : Page := ⟨"zzz", [], 612⟩

/-- The two-page counterexample document. -/
def cexPdf : Pdf := ⟨[cexProbePage, cexJunkPage]⟩

lemma cex_valid_entry :
    hasValidEntry (minTitlePageDistance cexPdf) cexProbePage.words = true := by
  have hrat : minTitlePageDistance cexPdf <
      (⟨"7", 200, 0, 0⟩ : Word).x0 - (⟨"chapter", 0, 0, 0⟩ : Word).x0 := by
    unfold minTitlePageDistance pageWidth cexPdf cexProbePage
    norm_num
  unfold hasValidEntry cexProbePage hasValidEntryAux
  rw [Bool.or_eq_true]
  left
  rw [Bool.and_eq_true, Bool.and_eq_true]
  refine ⟨⟨by decide, by decide⟩, ?_⟩
  rw [List.any_eq_true]
  refine ⟨⟨"7", 200, 0, 0⟩, ?_, ?_⟩
  · rw [show (([⟨"7", (200 : Rat), 0, 0⟩] : List Word).filter
      (fun x => x.text != ".")).take 10 = [⟨"7", 200, 0, 0⟩] from rfl]
    exact List.mem_singleton.mpr rfl
  · rw [Bool.and_eq_true]
    exact ⟨by decide, decide_eq_true hrat⟩

lemma cex_probe : probeFound cexPdf = true := by
  unfold probeFound
  rw [List.any_eq_true]
  refine ⟨0, by decide, ?_⟩
  rw [show cexPdf.pages[0]? = some cexProbePage from rfl]
  dsimp only
  rw [Bool.and_eq_true, Bool.and_eq_true]
  exact ⟨⟨by decide, by decide⟩, cex_valid_entry⟩

lemma cex_accept0 : stratAccepted cexPdf [0] = true := by
  unfold stratAccepted validEntryPages
  rw [show ([0] : List Nat).filter (fun pn =>
      match cexPdf.pages[pn]? with
      | none => false
      | some page => hasValidEntry (minTitlePageDistance cexPdf) page.words)
    = [0] from by
      rw [List.filter_singleton]
      rw [show cexPdf.pages[0]? = some cexProbePage from rfl]
      dsimp only
      rw [cex_valid_entry]
      rfl]
  rfl

lemma cex_accept1 : stratAccepted cexPdf [1] = true := rfl

/-- C8 counterexample: strategy (a) returns the single junk page, which has
zero qualifying entries — fewer than half of the returned pages — yet the
coordinator accepts and returns it, because the acceptance threshold is the
floor `len(toc_pages) // 2 = 0`. -/
theorem find_toc_pages_half_counterexample :
    find_toc_pages cexPdf (fun _ => [1]) (fun _ => []) (fun _ => []) (fun _ => [])
      = [1]
    ∧ validEntryPages cexPdf (minTitlePageDistance cexPdf) [1] = 0
    ∧ 2 * validEntryPages cexPdf (minTitlePageDistance cexPdf) [1]
        < ([1] : List Nat).length := by
  refine ⟨?_, rfl, ?_⟩
  · unfold find_toc_pages
    rw [cex_probe]
    dsimp only
    rw [cex_accept1]
    rfl
  · rw [show validEntryPages cexPdf (minTitlePageDistance cexPdf) [1] = 0 from rfl]
    decide

/-- Witness for the amended C8 theorem: on the counterexample document a
strategy returning the probe page itself is validated (one of one pages
qualifies) and its output is returned by the first cascade stage. -/
theorem find_toc_pages_cascade_witness :
    find_toc_pages cexPdf (fun _ => [0]) (fun _ => []) (fun _ => []) (fun _ => [])
      = [0] :=
  ((find_toc_pages_cascade cexPdf (fun _ => [0]) (fun _ => []) (fun _ => [])
    (fun _ => [])).2 cex_probe).1 cex_accept0
